import Mathlib

/-!
Shallow embedding of the HBnB authorization-and-integrity core
(`part4/hbnb`): the SQLAlchemy models (`app/models/*.py`), the facade
(`app/services/facade.py`), and the route handlers (`app/api/v1/*.py`),
with the relational store modelled as explicit state.

Conventions used throughout:
* Python payload values are `PyVal`; request payloads are association
  lists (JSON objects have unique keys, so `NodupKeys` is assumed where
  iteration order matters).
* Python exceptions are an `Except Err` result.  `Err.invalidInput` and
  `Err.conflict` both correspond to Python `ValueError` (split by the
  failure taxonomy: `conflict` tags the uniqueness/duplicate raise
  sites); `Err.typeError` is Python `TypeError`; `Err.integrityError`
  is a database constraint violation raised at commit time.
* Timestamps are abstract `Nat` ticks and are never refreshed here:
  no verified property depends on their values, only on the presence of
  the `created_at`/`updated_at` dictionary keys.
* Generated UUIDs are drawn from a counter threaded through the store
  state (`St.nextId`).
-/

namespace HBnB

/-- Python-level values that can appear in request payloads. -/
inductive PyVal where
  | str (s : String)
  | int (n : Int)
  | float (q : Rat)
  | bool (b : Bool)
  | list (xs : List String)
  | none
deriving DecidableEq

/-- Python truthiness of a payload value. -/
def pyTruthy : PyVal → Bool
  | .str s => !(s == "")
  | .int n => !(n == 0)
  | .float q => !(q == 0)
  | .bool b => b
  | .list xs => !xs.isEmpty
  | .none => false

/-- A request payload: a JSON object, i.e. a key/value association list. -/
abbrev Payload := List (String × PyVal)

/-- Python `data.get(k)`: the first binding of `k`, or `None` when absent. -/
def pyGet (d : Payload) (k : String) : PyVal :=
  match d.find? (fun kv => kv.1 == k) with
  | some kv => kv.2
  | Option.none => .none

/-- Python `k in data`. -/
def hasKey (d : Payload) (k : String) : Bool :=
  d.any (fun kv => kv.1 == k)

/-- JSON objects cannot repeat keys; payloads built from requests satisfy this. -/
def NodupKeys (d : Payload) : Prop := (d.map Prod.fst).Nodup

/-- Failure result of a model/facade operation (see the module header for
the correspondence with Python exception classes). -/
inductive Err where
  | invalidInput (msg : String)
  | conflict (msg : String)
  | typeError (msg : String)
  | integrityError (msg : String)
deriving DecidableEq

/-- Whether the failure is a Python `ValueError` (caught by the route
handlers' `except ValueError` clauses). -/
def Err.isPyValueError : Err → Bool
  | .invalidInput _ => true
  | .conflict _ => true
  | _ => false

/-- `users` table row / `User` model instance.  Column attributes that a
constructor may leave unassigned are `Option`s (`none` = SQL `NULL` /
Python `None`). -/
structure UserE where
  id : String
  firstName : Option String := Option.none
  lastName : Option String := Option.none
  email : Option String := Option.none
  password : Option String := Option.none
  isAdmin : Bool := false
  createdAt : Nat := 0
  updatedAt : Nat := 0
deriving DecidableEq

/-- `places` table row / `Place` model instance.  `amenities` is the
place's side of the `place_amenity` association table (amenity ids). -/
structure PlaceE where
  id : String
  title : Option String := Option.none
  description : Option String := Option.none
  price : Option Rat := Option.none
  latitude : Option Rat := Option.none
  longitude : Option Rat := Option.none
  ownerId : Option String := Option.none
  amenities : List String := []
  createdAt : Nat := 0
  updatedAt : Nat := 0
deriving DecidableEq

/-- `reviews` table row / `Review` model instance. -/
structure ReviewE where
  id : String
  text : Option String := Option.none
  rating : Option Int := Option.none
  userId : Option String := Option.none
  placeId : Option String := Option.none
  createdAt : Nat := 0
  updatedAt : Nat := 0
deriving DecidableEq

/-- `amenities` table row / `Amenity` model instance. -/
structure AmenityE where
  id : String
  name : Option String := Option.none
  placeId : Option String := Option.none
  ownerId : Option String := Option.none
  createdAt : Nat := 0
  updatedAt : Nat := 0
deriving DecidableEq

/-- The entity store: the four tables plus the UUID source. -/
structure St where
  users : List UserE := []
  places : List PlaceE := []
  reviews : List ReviewE := []
  amenities : List AmenityE := []
  nextId : Nat := 0
deriving DecidableEq

/-- The empty store. -/
def stEmpty : St := {}

/-- Draw a fresh generated id (`BaseModel.id` default). -/
def freshId (s : St) : String × St :=
  ("uuid-" ++ toString s.nextId, { s with nextId := s.nextId + 1 })

/-- `user_repo.get`: SELECT by primary key. -/
def getUser (s : St) (uid : String) : Option UserE :=
  s.users.find? (fun u => u.id == uid)

/-- `place_repo.get`. -/
def getPlace (s : St) (pid : String) : Option PlaceE :=
  s.places.find? (fun p => p.id == pid)

/-- `review_repo.get`. -/
def getReview (s : St) (rid : String) : Option ReviewE :=
  s.reviews.find? (fun r => r.id == rid)

/-- `amenity_repo.get`. -/
def getAmenity (s : St) (aid : String) : Option AmenityE :=
  s.amenities.find? (fun a => a.id == aid)

/-- `UserRepository.get_user_by_email`: `filter_by(email=email).first()`,
an exact (case-sensitive) match on the stored column value. -/
def getUserByEmail (s : St) (e : String) : Option UserE :=
  s.users.find? (fun u => u.email == some e)

/-- A `query.get`/`filter_by` whose argument is a dynamic payload value:
a non-string key matches no `String(36)` primary key. -/
def getUserVal (s : St) : PyVal → Option UserE
  | .str uid => getUser s uid
  | _ => Option.none

/-- See `getUserVal`. -/
def getPlaceVal (s : St) : PyVal → Option PlaceE
  | .str pid => getPlace s pid
  | _ => Option.none

/-- `ReviewRepository.get_reviews_by_place`: `filter_by(place_id=...)`. -/
def getReviewsByPlaceRepo (s : St) (pid : String) : List ReviewE :=
  s.reviews.filter (fun r => r.placeId == some pid)

/-- Replace the stored row for a user id (an in-place ORM mutation made
visible at commit). -/
def setUser (s : St) (uid : String) (u : UserE) : St :=
  { s with users := s.users.map (fun x => if x.id == uid then u else x) }

/-- See `setUser`. -/
def setPlace (s : St) (pid : String) (p : PlaceE) : St :=
  { s with places := s.places.map (fun x => if x.id == pid then p else x) }

/-- See `setUser`. -/
def setReview (s : St) (rid : String) (r : ReviewE) : St :=
  { s with reviews := s.reviews.map (fun x => if x.id == rid then r else x) }

/-- `users` insert (`UserRepository.add` → `db.session.add` + commit).
The schema declares `first_name`/`last_name`/`email`/`password` NOT NULL
and `email` UNIQUE; the store enforces them at commit. -/
def userRepoAdd (s : St) (u : UserE) : Except Err St :=
  if u.firstName.isNone ∨ u.lastName.isNone ∨ u.email.isNone ∨ u.password.isNone then
    .error (.integrityError "NOT NULL constraint failed: users")
  else if s.users.any (fun x => x.email == u.email) then
    .error (.integrityError "UNIQUE constraint failed: users.email")
  else
    .ok { s with users := s.users ++ [u] }

/-- `reviews` insert.  NOT NULL on `text`/`rating`/`user_id`/`place_id`;
UNIQUE on `(user_id, place_id)`. -/
def reviewRepoAdd (s : St) (r : ReviewE) : Except Err St :=
  if r.text.isNone then
    .error (.integrityError "NOT NULL constraint failed: reviews.text")
  else if r.rating.isNone then
    .error (.integrityError "NOT NULL constraint failed: reviews.rating")
  else if r.userId.isNone ∨ r.placeId.isNone then
    .error (.integrityError "NOT NULL constraint failed: reviews")
  else if s.reviews.any (fun x => x.userId == r.userId ∧ x.placeId == r.placeId) then
    .error (.integrityError "UNIQUE constraint failed: reviews.user_id, reviews.place_id")
  else
    .ok { s with reviews := s.reviews ++ [r] }

/-- `places` insert.  NOT NULL on `title`/`price`/`latitude`/`longitude`/`owner_id`. -/
def placeRepoAdd (s : St) (p : PlaceE) : Except Err St :=
  if p.title.isNone ∨ p.price.isNone ∨ p.latitude.isNone ∨ p.longitude.isNone ∨
      p.ownerId.isNone then
    .error (.integrityError "NOT NULL constraint failed: places")
  else
    .ok { s with places := s.places ++ [p] }

/-- `amenities` insert.  NOT NULL on `name` only (`unique=False` in the schema). -/
def amenityRepoAdd (s : St) (a : AmenityE) : Except Err St :=
  if a.name.isNone then
    .error (.integrityError "NOT NULL constraint failed: amenities.name")
  else
    .ok { s with amenities := s.amenities ++ [a] }

/-! ## Validation layer (the `@validates` functions of the models) -/

/-- Python `str.strip()`: drop surrounding whitespace (implemented on the
character list so that it reduces inside the kernel). -/
def pyStrip (t : String) : String :=
  ⟨((t.data.dropWhile Char.isWhitespace).reverse.dropWhile Char.isWhitespace).reverse⟩

/-- Python `str.lower()`. -/
def strLower (t : String) : String := ⟨t.data.map Char.toLower⟩

/-- Split a character list on a separator (`str.split(sep)`). -/
def splitOnChar (sep : Char) : List Char → List (List Char)
  | [] => [[]]
  | c :: rest =>
    let r := splitOnChar sep rest
    if c = sep then [] :: r
    else
      match r with
      | h :: t => (c :: h) :: t
      | [] => [[c]]

/-- `User.validate_first_name`: non-empty, non-whitespace string of at
most 255 characters, stored stripped. -/
def validate_first_name (v : PyVal) : Except Err String :=
  match v with
  | .str s => if s == "" ∨ pyStrip s == "" then
      .error (.invalidInput "first_name must be a non-empty string")
    else if s.length > 255 then
      .error (.invalidInput "first_name must be less than 255 characters")
    else .ok (pyStrip s)
  | _ => .error (.invalidInput "first_name must be a non-empty string")

/-- `User.validate_last_name`. -/
def validate_last_name (v : PyVal) : Except Err String :=
  match v with
  | .str s => if s == "" ∨ pyStrip s == "" then
      .error (.invalidInput "last_name must be a non-empty string")
    else if s.length > 255 then
      .error (.invalidInput "last_name must be less than 255 characters")
    else .ok (pyStrip s)
  | _ => .error (.invalidInput "last_name must be a non-empty string")

/-- Modelled from the spec: the external `email_validator` library used by
`User.validate_email_field` (out of scope for the repository; the spec says
"must parse as a syntactically valid address ... normalize to a canonical
casing before storing", and the source docstring gives the normalization
example `John@Example.COM` → `john@example.com`).  Syntax: exactly one `@`,
a non-empty local part, and a non-empty domain containing an inner period;
normalization lowercases the address. -/
def emailValidatorNormalize (e : String) : Option String :=
  match splitOnChar '@' e.data with
  | [lp, dom] =>
    if lp ≠ [] ∧ dom ≠ [] ∧ (splitOnChar '.' dom).length ≥ 2 ∧
        dom.head? ≠ some '.' ∧ dom.getLast? ≠ some '.' then
      some (strLower e)
    else Option.none
  | _ => Option.none

/-- `User.validate_email_field`. -/
def validate_email_field (v : PyVal) : Except Err String :=
  match v with
  | .str s =>
    if s == "" then .error (.invalidInput "Email must be a non-empty string")
    else
      match emailValidatorNormalize s with
      | some n => .ok n
      | Option.none => .error (.invalidInput "Invalid email")
  | _ => .error (.invalidInput "Email must be a non-empty string")

/-- bcrypt as the opaque hash oracle the spec assumes: an injective tagging
of the plaintext, standing in for `generate_password_hash`. -/
def bcryptHash (p : String) : String := "bcrypt$" ++ p

/-- `User.hash_password`: rejects missing/short passwords, stores the hash.
(A truthy non-string password would fail `len()` with a `TypeError`.) -/
def hash_password (v : PyVal) : Except Err String :=
  match v with
  | .str s =>
    if s == "" ∨ s.length < 6 then
      .error (.invalidInput "Password must be at least 6 characters long")
    else .ok (bcryptHash s)
  | w =>
    if pyTruthy w then .error (.typeError "object of this type has no len")
    else .error (.invalidInput "Password must be at least 6 characters long")

/-- `Amenity.validate_name`. -/
def validate_name (v : PyVal) : Except Err String :=
  match v with
  | .str s => if s == "" ∨ pyStrip s == "" then
      .error (.invalidInput "Amenity name must be a non-empty string")
    else if s.length > 255 then
      .error (.invalidInput "Amenity name must be less than 255 characters")
    else .ok (pyStrip s)
  | _ => .error (.invalidInput "Amenity name must be a non-empty string")

/-- `Place.validate_title`. -/
def validate_title (v : PyVal) : Except Err String :=
  match v with
  | .str s => if s == "" ∨ pyStrip s == "" then
      .error (.invalidInput "title must be a non-empty string")
    else if s.length > 255 then
      .error (.invalidInput "title must be less than 255 characters")
    else .ok (pyStrip s)
  | _ => .error (.invalidInput "title must be a non-empty string")

/-- `Place.validate_price`: `None` is required-error; numeric values are
range-checked; non-numeric values are a type error.  (Numeric strings,
which `Decimal(str(v))` would accept, are not exercised by any claim and
are modelled as the type error branch.) -/
def validate_price (v : PyVal) : Except Err Rat :=
  match v with
  | .none => .error (.invalidInput "Price is required")
  | .int n => if (n : Rat) < 0 then .error (.invalidInput "Price must be non-negative")
      else .ok (n : Rat)
  | .float q => if q < 0 then .error (.invalidInput "Price must be non-negative")
      else .ok q
  | .bool b => if b then .error (.typeError "Price must be a number")
      else .error (.typeError "Price must be a number")
  | _ => .error (.typeError "Price must be a number")

/-- `Place.validate_latitude`: `isinstance(value, (int, float))` admits
Python booleans (`True == 1`). -/
def validate_latitude (v : PyVal) : Except Err Rat :=
  match v with
  | .int n => if (n : Rat) < -90 ∨ (90 : Rat) < (n : Rat) then
      .error (.invalidInput "Latitude must be between -90 and 90")
    else .ok (n : Rat)
  | .float q => if q < -90 ∨ 90 < q then
      .error (.invalidInput "Latitude must be between -90 and 90")
    else .ok q
  | .bool b => .ok (if b then 1 else 0)
  | _ => .error (.typeError "Latitude must be a number")

/-- `Place.validate_longitude`. -/
def validate_longitude (v : PyVal) : Except Err Rat :=
  match v with
  | .int n => if (n : Rat) < -180 ∨ (180 : Rat) < (n : Rat) then
      .error (.invalidInput "Longitude must be between -180 and 180")
    else .ok (n : Rat)
  | .float q => if q < -180 ∨ 180 < q then
      .error (.invalidInput "Longitude must be between -180 and 180")
    else .ok q
  | .bool b => .ok (if b then 1 else 0)
  | _ => .error (.typeError "Longitude must be a number")

/-- `Review.validate_text`. -/
def validate_text (v : PyVal) : Except Err String :=
  match v with
  | .str s => if s == "" ∨ pyStrip s == "" then
      .error (.invalidInput "text must be a non-empty string")
    else .ok (pyStrip s)
  | _ => .error (.invalidInput "text must be a non-empty string")

/-- `Review.validate_rating`: `isinstance(value, int)` admits exactly the
Python integers (and booleans, since `bool <: int`); everything else is a
`TypeError`, out-of-range integers a `ValueError`. -/
def validate_rating (v : PyVal) : Except Err Int :=
  match v with
  | .int n => if n < 1 ∨ 5 < n then
      .error (.invalidInput "rating must be between 1 and 5")
    else .ok n
  | .bool b => if b then .ok 1
      else .error (.invalidInput "rating must be between 1 and 5")
  | _ => .error (.typeError "rating must be a number (integer or float)")

/-! ## Model constructors (the `__init__` methods) -/

/-- `User.__init__` applied to `User(**user_data)`: each field is assigned
only when truthy, and each assignment runs its validator.  Assignment
order follows the source: first_name, last_name, email, is_admin,
password.  (A dynamic non-boolean `is_admin` is coerced by truthiness;
no claim exercises that corner.) -/
def userInit (s : St) (d : Payload) : Except Err (UserE × St) :=
  let (nid, s1) := freshId s
  let u0 : UserE := { id := nid }
  (if pyTruthy (pyGet d "first_name") then
      (validate_first_name (pyGet d "first_name")).map (fun x => { u0 with firstName := some x })
    else .ok u0).bind (fun u1 =>
  (if pyTruthy (pyGet d "last_name") then
      (validate_last_name (pyGet d "last_name")).map (fun x => { u1 with lastName := some x })
    else .ok u1).bind (fun u2 =>
  (if pyTruthy (pyGet d "email") then
      (validate_email_field (pyGet d "email")).map (fun x => { u2 with email := some x })
    else .ok u2).bind (fun u3 =>
  let u4 : UserE := { u3 with isAdmin := match pyGet d "is_admin" with
                                         | .bool b => b
                                         | .none => false
                                         | w => pyTruthy w }
  (if pyTruthy (pyGet d "password") then
      (hash_password (pyGet d "password")).map (fun x => { u4 with password := some x })
    else .ok u4).map (fun u5 => (u5, s1)))))

/-- `Amenity.__init__(name, place_id, owner_id)`. -/
def amenityInit (s : St) (nameV pidV oidV : PyVal) : Except Err (AmenityE × St) :=
  let (nid, s1) := freshId s
  let a0 : AmenityE := { id := nid }
  (if pyTruthy nameV then
      (validate_name nameV).map (fun nm => { a0 with name := some nm })
    else .ok a0).map (fun a1 =>
    let a2 := if pyTruthy pidV then
        { a1 with placeId := match pidV with | .str p => some p | _ => a1.placeId }
      else a1
    let a3 := if pyTruthy oidV then
        { a2 with ownerId := match oidV with | .str o => some o | _ => a2.ownerId }
      else a2
    (a3, s1))

/-- `Review.__init__`: `text` is assigned **only when truthy** (so an
empty string skips the validator), `rating` when it `is not None`,
`user_id`/`place_id` when truthy (no validators). -/
def reviewInit (s : St) (d : Payload) : Except Err (ReviewE × St) :=
  let (nid, s1) := freshId s
  let r0 : ReviewE := { id := nid }
  (if pyTruthy (pyGet d "text") then
      (validate_text (pyGet d "text")).map (fun t => { r0 with text := some t })
    else .ok r0).bind (fun r1 =>
  (if pyGet d "rating" != .none then
      (validate_rating (pyGet d "rating")).map (fun n => { r1 with rating := some n })
    else .ok r1).map (fun r2 =>
    let r3 := if pyTruthy (pyGet d "user_id") then
        { r2 with userId := match pyGet d "user_id" with | .str us => some us | _ => r2.userId }
      else r2
    let r4 := if pyTruthy (pyGet d "place_id") then
        { r3 with placeId := match pyGet d "place_id" with | .str ps => some ps | _ => r3.placeId }
      else r3
    (r4, s1)))

/-! ## Serialization (`to_dict`) -/

/-- A value in a serialized (JSON) dictionary. -/
inductive DVal where
  | str (s : String)
  | int (n : Int)
  | rat (q : Rat)
  | bool (b : Bool)
  | none
deriving DecidableEq

/-- Serialize an optional string column. -/
def optStrD : Option String → DVal
  | some s => .str s
  | Option.none => .none

/-- `BaseModel.to_dict` specialized to the `users` table: one entry per
database column (timestamps serialized as their tick value), plus the
`__class__` tag.  This still contains the password hash column. -/
def userColumnsToDict (u : UserE) : List (String × DVal) :=
  [("id", .str u.id),
   ("created_at", .int (u.createdAt : Int)),
   ("updated_at", .int (u.updatedAt : Int)),
   ("first_name", optStrD u.firstName),
   ("last_name", optStrD u.lastName),
   ("email", optStrD u.email),
   ("password", optStrD u.password),
   ("is_admin", .bool u.isAdmin),
   ("__class__", .str "User")]

/-- `User.to_dict`: the base dictionary with the `password` key popped. -/
def userToDict (u : UserE) : List (String × DVal) :=
  (userColumnsToDict u).filter (fun kv => kv.1 ≠ "password")

/-! ## Facade: users -/

/-- Raw-valued variant of `getUserByEmail` (the facade passes the payload
value straight to the query). -/
def getUserByEmailVal (s : St) : PyVal → Option UserE
  | .str e => getUserByEmail s e
  | _ => Option.none

/-- `HBnBFacade.create_user`: requires a truthy email, rejects an email
already stored **under exactly the raw payload string**, then constructs
and inserts the user (whose stored email is the *normalized* one). -/
def create_user (s : St) (d : Payload) : Except Err (UserE × St) :=
  let emailV := pyGet d "email"
  if ¬ pyTruthy emailV then .error (.invalidInput "Email is required")
  else if (getUserByEmailVal s emailV).isSome then .error (.conflict "Email already registered")
  else
    (userInit s d).bind (fun us =>
      (userRepoAdd us.2 us.1).map (fun s2 => (us.1, s2)))

/-- Assign one attribute of a user object (`setattr` with the column
validators; non-column attribute names have no modelled effect). -/
def userSetAttr (u : UserE) (k : String) (v : PyVal) : Except Err UserE :=
  if k == "first_name" then (validate_first_name v).map (fun x => { u with firstName := some x })
  else if k == "last_name" then (validate_last_name v).map (fun x => { u with lastName := some x })
  else if k == "email" then (validate_email_field v).map (fun x => { u with email := some x })
  else if k == "password" then
    .ok { u with password := match v with | .str x => some x | _ => u.password }
  else if k == "is_admin" then
    .ok { u with isAdmin := match v with | .bool b => b | w => pyTruthy w }
  else .ok u

/-- `BaseModel.update` on a user: iterate the dictionary, skipping
`id`/`created_at`/`__class__`, assigning the rest. -/
def userUpdateObj (u : UserE) : Payload → Except Err UserE
  | [] => .ok u
  | (k, v) :: rest =>
    if k == "id" ∨ k == "created_at" ∨ k == "__class__" then userUpdateObj u rest
    else (userSetAttr u k v).bind (fun u' => userUpdateObj u' rest)

/-- Python `data.pop(k)`. -/
def removeKey (d : Payload) (k : String) : Payload :=
  d.filter (fun kv => kv.1 ≠ k)

/-- `HBnBFacade.update_user`: `None` when the user is missing; protected
fields `id`, `created_at` rejected first; then the email-uniqueness check,
password hashing, and the object update. -/
def update_user (s : St) (userId : String) (d : Payload) :
    Except Err (Option (UserE × St)) :=
  match getUser s userId with
  | Option.none => .ok Option.none
  | some user =>
    if hasKey d "id" then .error (.invalidInput "Cannot update 'id'")
    else if hasKey d "created_at" then .error (.invalidInput "Cannot update 'created_at'")
    else if hasKey d "email" &&
        (match getUserByEmailVal s (pyGet d "email") with
         | some eu => eu.id != userId
         | Option.none => false) then
      .error (.conflict "Email already in use")
    else
      (if hasKey d "password" then
          (hash_password (pyGet d "password")).map
            (fun h => ({ user with password := some h }, removeKey d "password"))
        else .ok (user, d)).bind (fun ud =>
      (userUpdateObj ud.1 ud.2).map (fun u' => some (u', setUser s userId u')))

/-! ## Facade: amenities -/

/-- Replace the stored row for an amenity id. -/
def setAmenity (s : St) (aid : String) (a : AmenityE) : St :=
  { s with amenities := s.amenities.map (fun x => if x.id == aid then a else x) }

/-- `HBnBFacade.create_amenity`: requires a truthy name; when `place_id`
(resp. `owner_id`) is truthy the referenced place (resp. user) must
exist; constructs, inserts, and finally appends the amenity to the
place's association list when a place was given. -/
def create_amenity (s : St) (d : Payload) : Except Err (AmenityE × St) :=
  let nameV := pyGet d "name"
  let pidV := pyGet d "place_id"
  let oidV := pyGet d "owner_id"
  if ¬ pyTruthy nameV then .error (.invalidInput "Amenity name is required")
  else if pyTruthy pidV && (getPlaceVal s pidV).isNone then
    .error (.invalidInput "Place not found")
  else if pyTruthy oidV && (getUserVal s oidV).isNone then
    .error (.invalidInput "Owner not found")
  else
    (amenityInit s nameV pidV oidV).bind (fun as1 =>
    (amenityRepoAdd as1.2 as1.1).map (fun s2 =>
      let s3 := if pyTruthy pidV then
          match getPlaceVal s2 pidV with
          | some pl =>
            if as1.1.id ∈ pl.amenities then s2
            else setPlace s2 pl.id { pl with amenities := pl.amenities ++ [as1.1.id] }
          | Option.none => s2
        else s2
      (as1.1, s3)))

/-- Assign one attribute of an amenity object. -/
def amenitySetAttr (a : AmenityE) (k : String) (v : PyVal) : Except Err AmenityE :=
  if k == "name" then (validate_name v).map (fun x => { a with name := some x })
  else if k == "place_id" then
    .ok { a with placeId := match v with
                            | .str p => some p
                            | .none => Option.none
                            | _ => a.placeId }
  else if k == "owner_id" then
    .ok { a with ownerId := match v with
                            | .str o => some o
                            | .none => Option.none
                            | _ => a.ownerId }
  else .ok a

/-- `BaseModel.update` on an amenity. -/
def amenityUpdateObj (a : AmenityE) : Payload → Except Err AmenityE
  | [] => .ok a
  | (k, v) :: rest =>
    if k == "id" ∨ k == "created_at" ∨ k == "__class__" then amenityUpdateObj a rest
    else (amenitySetAttr a k v).bind (fun a' => amenityUpdateObj a' rest)

/-- `HBnBFacade.update_amenity`: `None` when missing; protected fields
`id`, `created_at` rejected first; then the object update followed by the
legacy place-association moves when `place_id` changed. -/
def update_amenity (s : St) (aid : String) (d : Payload) :
    Except Err (Option (AmenityE × St)) :=
  match getAmenity s aid with
  | Option.none => .ok Option.none
  | some am =>
    if hasKey d "id" then .error (.invalidInput "Cannot update 'id'")
    else if hasKey d "created_at" then .error (.invalidInput "Cannot update 'created_at'")
    else
      (amenityUpdateObj am d).map (fun am' =>
        let s1 := setAmenity s aid am'
        let s2 := match pyGet d "place_id" with
          | .str np =>
            if np ≠ "" ∧ some np ≠ am.placeId then
              let sA := match am.placeId with
                | some op =>
                  match getPlace s1 op with
                  | some opl =>
                    if am'.id ∈ opl.amenities then
                      setPlace s1 op
                        { opl with amenities := opl.amenities.filter (fun x => x ≠ am'.id) }
                    else s1
                  | Option.none => s1
                | Option.none => s1
              match getPlace sA np with
              | some npl =>
                if am'.id ∈ npl.amenities then sA
                else setPlace sA np { npl with amenities := npl.amenities ++ [am'.id] }
              | Option.none => sA
            else s1
          | _ => s1
        some (am', s2))

/-! ## Facade: places -/

/-- `hasattr(place, key)` over the attributes of a `Place` instance
(columns, relationships, and methods all answer `hasattr`). -/
def placeHasAttr (k : String) : Bool :=
  k ∈ ["id", "created_at", "updated_at", "title", "description", "price",
       "latitude", "longitude", "owner_id", "owner", "reviews", "amenities",
       "add_amenity", "to_dict", "save", "delete", "update"]

/-- A value destined for `place.update`: either a raw payload value or the
resolved amenity-object list (kept as ids). -/
inductive UpdVal where
  | py (v : PyVal)
  | ams (ids : List String)
deriving DecidableEq

/-- Resolve a list of amenity ids against the store, failing on the first
missing one (`update_place`'s inner loop). -/
def resolveAmenityIds (s : St) : List String → Except Err (List String)
  | [] => .ok []
  | aid :: rest =>
    match getAmenity s aid with
    | Option.none => .error (.invalidInput ("Amenity ID '" ++ aid ++ "' not found"))
    | some _ => (resolveAmenityIds s rest).map (fun ids => aid :: ids)

/-- Build `update_data` from the payload: the `amenities` key is resolved
to amenity objects (every id must exist), other keys are kept when the
place has such an attribute.  (Iterating a non-list `amenities` value
raises a `TypeError` in Python; modelled as such.) -/
def buildPlaceUpdateData (s : St) : Payload → Except Err (List (String × UpdVal))
  | [] => .ok []
  | (k, v) :: rest =>
    if k == "amenities" then
      match v with
      | .list ids =>
        (resolveAmenityIds s ids).bind (fun rids =>
          (buildPlaceUpdateData s rest).map (fun ud => (k, .ams rids) :: ud))
      | _ => .error (.typeError "amenities value is not iterable")
    else if placeHasAttr k then
      (buildPlaceUpdateData s rest).map (fun ud => (k, .py v) :: ud)
    else
      buildPlaceUpdateData s rest

/-- Assign one attribute of a place object (`setattr` with validators;
`amenities` assignment replaces the whole association collection). -/
def placeSetAttr (p : PlaceE) (k : String) (v : UpdVal) : Except Err PlaceE :=
  match v with
  | .ams ids => if k == "amenities" then .ok { p with amenities := ids } else .ok p
  | .py w =>
    if k == "title" then (validate_title w).map (fun x => { p with title := some x })
    else if k == "description" then
      .ok { p with description := match w with
                                  | .str x => some x
                                  | .none => Option.none
                                  | _ => p.description }
    else if k == "price" then (validate_price w).map (fun x => { p with price := some x })
    else if k == "latitude" then (validate_latitude w).map (fun x => { p with latitude := some x })
    else if k == "longitude" then (validate_longitude w).map (fun x => { p with longitude := some x })
    else if k == "owner_id" then
      .ok { p with ownerId := match w with
                              | .str x => some x
                              | .none => Option.none
                              | _ => p.ownerId }
    else .ok p

/-- `BaseModel.update` on a place. -/
def placeApplyUpdate (p : PlaceE) : List (String × UpdVal) → Except Err PlaceE
  | [] => .ok p
  | (k, v) :: rest =>
    if k == "id" ∨ k == "created_at" ∨ k == "__class__" then placeApplyUpdate p rest
    else (placeSetAttr p k v).bind (fun p' => placeApplyUpdate p' rest)

/-- `HBnBFacade.update_place`: `None` when missing; protected fields `id`,
`owner_id`, `created_at` rejected first; then `update_data` is built
(resolving `amenities` as a full-replacement list) and applied. -/
def update_place (s : St) (placeId : String) (d : Payload) :
    Except Err (Option (PlaceE × St)) :=
  match getPlace s placeId with
  | Option.none => .ok Option.none
  | some pl =>
    if hasKey d "id" then .error (.invalidInput "Cannot update 'id'")
    else if hasKey d "owner_id" then .error (.invalidInput "Cannot update 'owner_id'")
    else if hasKey d "created_at" then .error (.invalidInput "Cannot update 'created_at'")
    else
      (buildPlaceUpdateData s d).bind (fun ud =>
      (placeApplyUpdate pl ud).map (fun pl' => some (pl', setPlace s placeId pl')))

/-- `HBnBFacade.delete_place`: cascades the place's reviews; the
`place_amenity` association rows live inside the place record and vanish
with it (amenity rows themselves are kept). -/
def delete_place (s : St) (pid : String) : Bool × St :=
  match getPlace s pid with
  | Option.none => (false, s)
  | some _ =>
    (true, { s with
      places := s.places.filter (fun p => p.id ≠ pid),
      reviews := s.reviews.filter (fun r => r.placeId ≠ some pid) })

/-! ## Facade: reviews -/

/-- `HBnBFacade.create_review`: validates the `user_id`/`place_id`
references, then constructs (model validators) and inserts (store
constraints). -/
def create_review (s : St) (d : Payload) : Except Err (ReviewE × St) :=
  let uidV := pyGet d "user_id"
  let pidV := pyGet d "place_id"
  if !pyTruthy uidV || (getUserVal s uidV).isNone then
    .error (.invalidInput "Invalid or missing user_id")
  else if !pyTruthy pidV || (getPlaceVal s pidV).isNone then
    .error (.invalidInput "Invalid or missing place_id")
  else
    (reviewInit s d).bind (fun rs =>
      (reviewRepoAdd rs.2 rs.1).map (fun s2 => (rs.1, s2)))

/-- `HBnBFacade.get_reviews_by_place`: the empty list when the place does
not exist, otherwise the repository query. -/
def get_reviews_by_place (s : St) (pid : String) : List ReviewE :=
  match getPlace s pid with
  | Option.none => []
  | some _ => getReviewsByPlaceRepo s pid

/-- `HBnBFacade.user_has_reviewed_place`. -/
def user_has_reviewed_place (s : St) (uid pid : String) : Bool :=
  (get_reviews_by_place s pid).any (fun r => r.userId == some uid)

/-- Assign one attribute of a review object. -/
def reviewSetAttr (r : ReviewE) (k : String) (v : PyVal) : Except Err ReviewE :=
  if k == "text" then (validate_text v).map (fun t => { r with text := some t })
  else if k == "rating" then (validate_rating v).map (fun n => { r with rating := some n })
  else if k == "user_id" then
    .ok { r with userId := match v with | .str us => some us | _ => r.userId }
  else if k == "place_id" then
    .ok { r with placeId := match v with | .str ps => some ps | _ => r.placeId }
  else .ok r

/-- `BaseModel.update` on a review. -/
def reviewUpdateObj (r : ReviewE) : Payload → Except Err ReviewE
  | [] => .ok r
  | (k, v) :: rest =>
    if k == "id" ∨ k == "created_at" ∨ k == "__class__" then reviewUpdateObj r rest
    else (reviewSetAttr r k v).bind (fun r' => reviewUpdateObj r' rest)

/-- `HBnBFacade.update_review`: `None` when missing; protected fields
`id`, `user_id`, `place_id`, `created_at` rejected first. -/
def update_review (s : St) (rid : String) (d : Payload) :
    Except Err (Option (ReviewE × St)) :=
  match getReview s rid with
  | Option.none => .ok Option.none
  | some r =>
    if hasKey d "id" then .error (.invalidInput "Cannot update 'id'")
    else if hasKey d "user_id" then .error (.invalidInput "Cannot update 'user_id'")
    else if hasKey d "place_id" then .error (.invalidInput "Cannot update 'place_id'")
    else if hasKey d "created_at" then .error (.invalidInput "Cannot update 'created_at'")
    else
      (reviewUpdateObj r d).map (fun r' => some (r', setReview s rid r'))

/-- `HBnBFacade.delete_review`. -/
def delete_review (s : St) (rid : String) : Bool × St :=
  match getReview s rid with
  | Option.none => (false, s)
  | some _ => (true, { s with reviews := s.reviews.filter (fun r => r.id ≠ rid) })

/-! ## API layer (route handlers)

Each handler takes the resolved authentication context (`Actor`: JWT
identity plus the `is_admin` claim) and returns an HTTP status together
with the store state after the request.  `abort(...)` branches happen
before any mutation, so they carry the incoming state. -/

/-- The resolved authentication context of a request. -/
structure Actor where
  id : String
  isAdmin : Bool
deriving DecidableEq

/-- HTTP outcome of a handler: status code, optional success body, and
the store state after the request. -/
structure ApiOut (α : Type) where
  status : Nat
  body : Option α := Option.none
  st : St
deriving DecidableEq

/-- Python dictionary assignment `d[k] = v`. -/
def paySet (d : Payload) (k : String) (v : PyVal) : Payload :=
  if hasKey d k then d.map (fun kv => if kv.1 == k then (k, v) else kv)
  else d ++ [(k, v)]

/-- `AmenityList.post` (`POST /amenities/`): the missing-place
`abort(404)` and the non-owner `abort(403)` are raised *inside* the
handler's `try`, and this route has no `except HTTPException: raise`
clause (unlike the reviews route), so its catch-all `except Exception`
re-aborts both as 500 internal errors.  Otherwise `owner_id` is forced
to the place's owner and the facade creates the amenity — a facade
`ValueError` maps to 400, and there is no name-uniqueness check
anywhere on this path. -/
def amenityListPost (a : Actor) (s : St) (d : Payload) : ApiOut AmenityE :=
  let pidV := pyGet d "place_id"
  match getPlaceVal s pidV with
  | Option.none => ⟨500, Option.none, s⟩
  | some pl =>
    if pl.ownerId ≠ some a.id ∧ ¬ a.isAdmin then ⟨500, Option.none, s⟩
    else
      let d2 := paySet d "owner_id"
        (match pl.ownerId with | some o => .str o | Option.none => .none)
      match create_amenity s d2 with
      | .ok (am, s') => ⟨201, some am, s'⟩
      | .error e => if e.isPyValueError then ⟨400, Option.none, s⟩ else ⟨500, Option.none, s⟩

/-- `ReviewList.post` (`POST /reviews/`): 403 on `user_id` mismatch,
404 when the place is missing, 403 when the actor owns the place,
409 when the actor already reviewed it, then the facade creates the
review (`ValueError` → 400, anything else → 500). -/
def reviewListPost (a : Actor) (s : St) (d : Payload) : ApiOut ReviewE :=
  if pyGet d "user_id" ≠ .str a.id then ⟨403, Option.none, s⟩
  else
    match pyGet d "place_id" with
    | .str ps =>
      match getPlace s ps with
      | Option.none => ⟨404, Option.none, s⟩
      | some pl =>
        if pl.ownerId == some a.id then ⟨403, Option.none, s⟩
        else if user_has_reviewed_place s a.id ps then ⟨409, Option.none, s⟩
        else
          match create_review s d with
          | .ok (r, s') => ⟨201, some r, s'⟩
          | .error e => if e.isPyValueError then ⟨400, Option.none, s⟩ else ⟨500, Option.none, s⟩
    | _ => ⟨404, Option.none, s⟩

/-- `PlaceResource.put` (`PUT /places/<id>`): 404 when missing and 403
unless owner or admin (both checked before the `try`), then the handler
pre-checks any supplied `amenities` ids against the stored amenities
before delegating to `update_place`.  The pre-check's `abort(400)` is
raised inside the `try`, and this route has no `except HTTPException:
raise` clause, so the catch-all `except Exception` re-aborts it as a
500 internal error; a facade `ValueError` maps to 400. -/
def placeResourcePut (a : Actor) (s : St) (pid : String) (d : Payload) : ApiOut PlaceE :=
  match getPlace s pid with
  | Option.none => ⟨404, Option.none, s⟩
  | some pl =>
    if pl.ownerId ≠ some a.id ∧ ¬ a.isAdmin then ⟨403, Option.none, s⟩
    else
      let proceed : ApiOut PlaceE :=
        match update_place s pid d with
        | .ok (some (pl', s')) => ⟨200, some pl', s'⟩
        | .ok Option.none => ⟨500, Option.none, s⟩
        | .error e => if e.isPyValueError then ⟨400, Option.none, s⟩ else ⟨500, Option.none, s⟩
      if hasKey d "amenities" then
        match pyGet d "amenities" with
        | .list ids =>
          if ids.any (fun x => (getAmenity s x).isNone) then ⟨500, Option.none, s⟩
          else proceed
        | _ => ⟨500, Option.none, s⟩
      else proceed

/-- `PlaceResource.delete` (`DELETE /places/<id>`). -/
def placeResourceDelete (a : Actor) (s : St) (pid : String) : ApiOut Unit :=
  match getPlace s pid with
  | Option.none => ⟨404, Option.none, s⟩
  | some pl =>
    if pl.ownerId ≠ some a.id ∧ ¬ a.isAdmin then ⟨403, Option.none, s⟩
    else
      let r := delete_place s pid
      ⟨204, some (), r.2⟩

/-- `ReviewResource.put` (`PUT /reviews/<id>`): 404 when missing, 403
unless author or admin, then `update_review`. -/
def reviewResourcePut (a : Actor) (s : St) (rid : String) (d : Payload) : ApiOut ReviewE :=
  match getReview s rid with
  | Option.none => ⟨404, Option.none, s⟩
  | some r =>
    if r.userId ≠ some a.id ∧ ¬ a.isAdmin then ⟨403, Option.none, s⟩
    else
      match update_review s rid d with
      | .ok (some (r', s')) => ⟨200, some r', s'⟩
      | .ok Option.none => ⟨404, Option.none, s⟩
      | .error e => if e.isPyValueError then ⟨400, Option.none, s⟩ else ⟨500, Option.none, s⟩

/-- `ReviewResource.delete` (`DELETE /reviews/<id>`). -/
def reviewResourceDelete (a : Actor) (s : St) (rid : String) : ApiOut Unit :=
  match getReview s rid with
  | Option.none => ⟨404, Option.none, s⟩
  | some r =>
    if r.userId ≠ some a.id ∧ ¬ a.isAdmin then ⟨403, Option.none, s⟩
    else
      match delete_review s rid with
      | (true, s') => ⟨204, some (), s'⟩
      | (false, s') => ⟨404, Option.none, s'⟩

/-- The handler's `if reviews_data is None` test: `get_reviews_by_place`
always returns a Python list, which the dynamic `None`-test sees as a
`some`; a hypothetical `None` return would be `Option.none` here. -/
def pyNoneGuard (l : List ReviewE) : Option (List ReviewE) := some l

/-- `PlaceReviewList.get` (`GET /reviews/places/<place_id>/reviews`). -/
def placeReviewListGet (s : St) (pid : String) : ApiOut (List ReviewE) :=
  match pyNoneGuard (get_reviews_by_place s pid) with
  | Option.none => ⟨404, Option.none, s⟩
  | some l => ⟨200, some l, s⟩

/-! ## Concrete fixture used by witnesses and counterexamples -/

/-- A regular user who owns `pLoft`. -/
def uAlice : UserE :=
  { id := "u1", firstName := some "Alice", lastName := some "Smith",
    email := some "alice@x.com", password := some (bcryptHash "secret1"), isAdmin := false }

/-- An admin who has reviewed `pLoft`. -/
def uBob : UserE :=
  { id := "u2", firstName := some "Bob", lastName := some "Jones",
    email := some "bob@x.com", password := some (bcryptHash "secret2"), isAdmin := true }

/-- A regular user with no place and no review. -/
def uCarol : UserE :=
  { id := "u3", firstName := some "Carol", lastName := some "King",
    email := some "carol@x.com", password := some (bcryptHash "secret3"), isAdmin := false }

/-- Alice's place, associated with the `a1` amenity. -/
def pLoft : PlaceE :=
  { id := "p1", title := some "Loft", description := some "nice loft",
    price := some 50, latitude := some 10, longitude := some 20,
    ownerId := some "u1", amenities := ["a1"] }

/-- An existing amenity named `WiFi`. -/
def amWifi : AmenityE := { id := "a1", name := some "WiFi", ownerId := some "u1" }

/-- Bob's review of Alice's place. -/
def rBob : ReviewE :=
  { id := "r1", text := some "nice", rating := some 4,
    userId := some "u2", placeId := some "p1" }

/-- The fixture store. -/
def stBase : St :=
  { users := [uAlice, uBob, uCarol], places := [pLoft],
    reviews := [rBob], amenities := [amWifi], nextId := 0 }

/-- A create-Review payload from Carol for Alice's place, with the given
rating value. -/
def dRate (v : PyVal) : Payload :=
  [("text", .str "Great place!"), ("rating", v), ("user_id", .str "u3"),
   ("place_id", .str "p1")]

/-- A create-User payload with the lowercase email `a@x.com`. -/
def dEmailLower : Payload :=
  [("first_name", .str "Ann"), ("last_name", .str "Lee"),
   ("email", .str "a@x.com"), ("password", .str "secret9")]

/-- The same create-User payload with the email cased `A@x.com`. -/
def dEmailUpper : Payload :=
  [("first_name", .str "Ann"), ("last_name", .str "Lee"),
   ("email", .str "A@x.com"), ("password", .str "secret9")]

/-- Whether a create-User call succeeded. -/
def userCreateOk : Except Err (UserE × St) → Bool
  | .ok _ => true
  | .error _ => false

/-- Whether a create-User call failed with the duplicate-email Conflict. -/
def userCreateConflict : Except Err (UserE × St) → Bool
  | .error (.conflict _) => true
  | _ => false

/-- Two create-User calls in sequence: the second call's result, the
second payload evaluated against the state the first call produced. -/
def createUserTwice (d1 d2 : Payload) : Except Err (UserE × St) :=
  match create_user stEmpty d1 with
  | .ok (_, s1) => create_user s1 d2
  | .error e => .error e

/-! ## Theorems -/

/-- **C8.** For every User entity and every successful operation that
returns user data outward, the serialized user payload never contains
the password hash field, regardless of which fields the user has set:
`User.to_dict` pops the `password` column unconditionally. -/
theorem C8_password_never_serialized (u : UserE) :
    "password" ∉ (userToDict u).map Prod.fst := by
  simp [userToDict, userColumnsToDict]

/-- **C9.** For every `place_id`, the reviews-by-place query returns a
list and never a null/NotFound result: the handler's place-not-found
branch is unreachable (status is always 200), and for a nonexistent
place the result is the empty list. -/
theorem C9_reviews_by_place_empty_not_404 (s : St) (pid : String) :
    (placeReviewListGet s pid).status = 200 ∧
    (getPlace s pid = Option.none →
      get_reviews_by_place s pid = [] ∧ (placeReviewListGet s pid).body = some []) := by
  refine ⟨rfl, fun h => ⟨?_, ?_⟩⟩
  · simp [get_reviews_by_place, h]
  · simp [placeReviewListGet, pyNoneGuard, get_reviews_by_place, h]

/-- Witness for C9 at a concrete nonexistent place. -/
theorem C9_witness :
    (placeReviewListGet stEmpty "p1").status = 200 ∧
    get_reviews_by_place stEmpty "p1" = [] ∧
    (placeReviewListGet stEmpty "p1").body = some [] := by
  have h := C9_reviews_by_place_empty_not_404 stEmpty "p1"
  exact ⟨h.1, (h.2 (by decide)).1, (h.2 (by decide)).2⟩

/-- **C1.** For every stored entity and every update payload containing
`id` or `created_at` (any entity), `owner_id` (Place), or
`user_id`/`place_id` (Review), the update fails with InvalidInput
(Python `ValueError` from the facade's protected-field guard), and —
at the API boundary, for an authorized actor — the store state is left
completely unchanged, the failure being raised before any store write. -/
theorem C1_protected_update_fields (s : St) (d : Payload) :
    (∀ uid u, getUser s uid = some u → hasKey d "id" ∨ hasKey d "created_at" →
      ∃ m, update_user s uid d = .error (.invalidInput m)) ∧
    (∀ aid am, getAmenity s aid = some am → hasKey d "id" ∨ hasKey d "created_at" →
      ∃ m, update_amenity s aid d = .error (.invalidInput m)) ∧
    (∀ pid pl, getPlace s pid = some pl →
      hasKey d "id" ∨ hasKey d "owner_id" ∨ hasKey d "created_at" →
      ∃ m, update_place s pid d = .error (.invalidInput m)) ∧
    (∀ rid r, getReview s rid = some r →
      hasKey d "id" ∨ hasKey d "user_id" ∨ hasKey d "place_id" ∨ hasKey d "created_at" →
      ∃ m, update_review s rid d = .error (.invalidInput m)) ∧
    (∀ a pid pl, getPlace s pid = some pl → pl.ownerId = some a.id ∨ a.isAdmin →
      hasKey d "id" ∨ hasKey d "owner_id" ∨ hasKey d "created_at" →
      (placeResourcePut a s pid d).st = s ∧ (placeResourcePut a s pid d).status ≠ 200) ∧
    (∀ a rid r, getReview s rid = some r → r.userId = some a.id ∨ a.isAdmin →
      hasKey d "id" ∨ hasKey d "user_id" ∨ hasKey d "place_id" ∨ hasKey d "created_at" →
      (reviewResourcePut a s rid d).st = s ∧ (reviewResourcePut a s rid d).status ≠ 200) := by
  have hUser : ∀ uid u, getUser s uid = some u →
      hasKey d "id" ∨ hasKey d "created_at" →
      ∃ m, update_user s uid d = .error (.invalidInput m) := by
    intro uid u hu hk
    by_cases h1 : hasKey d "id"
    · exact ⟨"Cannot update 'id'", by simp [update_user, hu, h1]⟩
    · rcases hk with h | h2
      · exact absurd h h1
      · exact ⟨"Cannot update 'created_at'", by simp [update_user, hu, h1, h2]⟩
  have hAm : ∀ aid am, getAmenity s aid = some am →
      hasKey d "id" ∨ hasKey d "created_at" →
      ∃ m, update_amenity s aid d = .error (.invalidInput m) := by
    intro aid am ha hk
    by_cases h1 : hasKey d "id"
    · exact ⟨"Cannot update 'id'", by simp [update_amenity, ha, h1]⟩
    · rcases hk with h | h2
      · exact absurd h h1
      · exact ⟨"Cannot update 'created_at'", by simp [update_amenity, ha, h1, h2]⟩
  have hPl : ∀ pid pl, getPlace s pid = some pl →
      hasKey d "id" ∨ hasKey d "owner_id" ∨ hasKey d "created_at" →
      ∃ m, update_place s pid d = .error (.invalidInput m) := by
    intro pid pl hp hk
    by_cases h1 : hasKey d "id"
    · exact ⟨"Cannot update 'id'", by simp [update_place, hp, h1]⟩
    · by_cases h2 : hasKey d "owner_id"
      · exact ⟨"Cannot update 'owner_id'", by simp [update_place, hp, h1, h2]⟩
      · rcases hk with h | h | h3
        · exact absurd h h1
        · exact absurd h h2
        · exact ⟨"Cannot update 'created_at'", by simp [update_place, hp, h1, h2, h3]⟩
  have hRv : ∀ rid r, getReview s rid = some r →
      hasKey d "id" ∨ hasKey d "user_id" ∨ hasKey d "place_id" ∨ hasKey d "created_at" →
      ∃ m, update_review s rid d = .error (.invalidInput m) := by
    intro rid r hr hk
    by_cases h1 : hasKey d "id"
    · exact ⟨"Cannot update 'id'", by simp [update_review, hr, h1]⟩
    · by_cases h2 : hasKey d "user_id"
      · exact ⟨"Cannot update 'user_id'", by simp [update_review, hr, h1, h2]⟩
      · by_cases h3 : hasKey d "place_id"
        · exact ⟨"Cannot update 'place_id'", by simp [update_review, hr, h1, h2, h3]⟩
        · rcases hk with h | h | h | h4
          · exact absurd h h1
          · exact absurd h h2
          · exact absurd h h3
          · exact ⟨"Cannot update 'created_at'", by
              simp [update_review, hr, h1, h2, h3, h4]⟩
  refine ⟨hUser, hAm, hPl, hRv, ?_, ?_⟩
  · intro a pid pl hp hauth hk
    have hc : ¬ (pl.ownerId ≠ some a.id ∧ ¬ a.isAdmin = true) := by
      rcases hauth with h | h
      · exact fun hx => hx.1 h
      · exact fun hx => hx.2 h
    obtain ⟨m, hm⟩ := hPl pid pl hp hk
    by_cases hamen : hasKey d "amenities"
    · rcases hv : pyGet d "amenities" with w | w | w | w | ids | _ <;>
        simp only [placeResourcePut, hp, hamen, hv, hm, if_true] <;>
        (repeat' split) <;> exact ⟨rfl, by simp⟩
    · simp only [placeResourcePut, hp, hc, hamen, hm, Err.isPyValueError,
        Bool.false_eq_true, if_false]
      split <;> simp
  · intro a rid r hr hauth hk
    have hc : ¬ (r.userId ≠ some a.id ∧ ¬ a.isAdmin = true) := by
      rcases hauth with h | h
      · exact fun hx => hx.1 h
      · exact fun hx => hx.2 h
    obtain ⟨m, hm⟩ := hRv rid r hr hk
    simp only [reviewResourcePut, hr, hc, hm, Err.isPyValueError]
    split <;> simp

/-- Witness for C1 at concrete entities and payloads. -/
theorem C1_witness :
    (∃ m, update_user stBase "u1" [("id", .str "zz")] = .error (.invalidInput m)) ∧
    (∃ m, update_amenity stBase "a1" [("created_at", .int 5)] = .error (.invalidInput m)) ∧
    (∃ m, update_place stBase "p1" [("owner_id", .str "u3")] = .error (.invalidInput m)) ∧
    (∃ m, update_review stBase "r1" [("user_id", .str "u3")] = .error (.invalidInput m)) ∧
    ((placeResourcePut ⟨"u1", false⟩ stBase "p1" [("owner_id", .str "u3")]).st = stBase ∧
     (placeResourcePut ⟨"u1", false⟩ stBase "p1" [("owner_id", .str "u3")]).status ≠ 200) ∧
    ((reviewResourcePut ⟨"u2", true⟩ stBase "r1" [("place_id", .str "p9")]).st = stBase ∧
     (reviewResourcePut ⟨"u2", true⟩ stBase "r1" [("place_id", .str "p9")]).status ≠ 200) := by
  refine ⟨?_, ?_, ?_, ?_, ?_, ?_⟩
  · exact (C1_protected_update_fields stBase [("id", .str "zz")]).1 "u1" uAlice
      (by decide) (Or.inl (by decide))
  · exact (C1_protected_update_fields stBase [("created_at", .int 5)]).2.1 "a1" amWifi
      (by decide) (Or.inr (by decide))
  · exact (C1_protected_update_fields stBase [("owner_id", .str "u3")]).2.2.1 "p1" pLoft
      (by decide) (Or.inr (Or.inl (by decide)))
  · exact (C1_protected_update_fields stBase [("user_id", .str "u3")]).2.2.2.1 "r1" rBob
      (by decide) (Or.inr (Or.inl (by decide)))
  · exact (C1_protected_update_fields stBase [("owner_id", .str "u3")]).2.2.2.2.1
      ⟨"u1", false⟩ "p1" pLoft (by decide) (Or.inl (by decide))
      (Or.inr (Or.inl (by decide)))
  · exact (C1_protected_update_fields stBase [("place_id", .str "p9")]).2.2.2.2.2
      ⟨"u2", true⟩ "r1" rBob (by decide) (Or.inr (by decide))
      (Or.inr (Or.inr (Or.inl (by decide))))

/-- **C10.** For every create-Review call whose text is falsy (e.g. the
empty string), the Review constructor skips assigning `text`, the
non-empty-text validator is never invoked (the constructed object's
`text` is `None`), and `create_review` raises no validation error for
the empty text: the violation surfaces as the storage layer's NOT NULL
failure instead of an InvalidInput. -/
theorem C10_empty_text_skips_validator :
    (∀ (s : St) (d : Payload) (r : ReviewE) (s' : St),
      pyTruthy (pyGet d "text") = false → reviewInit s d = .ok (r, s') →
      r.text = Option.none) ∧
    (∀ (s : St) (d : Payload) (us ps : String) (n : Int) (u0 : UserE) (p0 : PlaceE),
      pyGet d "text" = .str "" →
      pyGet d "user_id" = .str us → us ≠ "" → getUser s us = some u0 →
      pyGet d "place_id" = .str ps → ps ≠ "" → getPlace s ps = some p0 →
      pyGet d "rating" = .int n → 1 ≤ n → n ≤ 5 →
      create_review s d =
        .error (.integrityError "NOT NULL constraint failed: reviews.text")) := by
  have init : ∀ (s : St) (d : Payload) (r : ReviewE) (s' : St),
      pyTruthy (pyGet d "text") = false → reviewInit s d = .ok (r, s') →
      r.text = Option.none := by
    intro s d r s' ht hok
    simp only [reviewInit, ht, Bool.false_eq_true, if_false, Except.bind] at hok
    by_cases hc : (pyGet d "rating" != PyVal.none) = true
    · rw [if_pos hc] at hok
      rcases hv : validate_rating (pyGet d "rating") with e | n <;> rw [hv] at hok
      · exact absurd hok (by simp [Except.map])
      · simp only [Except.map] at hok
        have h := Except.ok.inj hok
        have h1 : _ = r := congrArg Prod.fst h
        subst h1
        split <;> split <;> rfl
    · rw [if_neg hc] at hok
      simp only [Except.map] at hok
      have h := Except.ok.inj hok
      have h1 : _ = r := congrArg Prod.fst h
      subst h1
      split <;> split <;> rfl
  refine ⟨init, ?_⟩
  intro s d us ps n u0 p0 ht hu hus hu0 hp hps hp0 hn h1 h5
  have htr : pyTruthy (pyGet d "text") = false := by rw [ht]; rfl
  have hcond1 : (!pyTruthy (pyGet d "user_id") ||
      (getUserVal s (pyGet d "user_id")).isNone) = false := by
    rw [hu]; simp [pyTruthy, hus, getUserVal, hu0]
  have hcond2 : (!pyTruthy (pyGet d "place_id") ||
      (getPlaceVal s (pyGet d "place_id")).isNone) = false := by
    rw [hp]; simp [pyTruthy, hps, getPlaceVal, hp0]
  have hnone : (pyGet d "rating" != PyVal.none) = true := by rw [hn]; rfl
  have hval : validate_rating (pyGet d "rating") = .ok n := by
    rw [hn]; simp only [validate_rating]
    rw [if_neg (by omega : ¬ (n < 1 ∨ 5 < n))]
  simp only [create_review, hcond1, Bool.false_eq_true, if_false, hcond2]
  simp only [reviewInit, htr, if_false, Except.bind, hnone, if_true, hval,
    Except.map, hu, hp]
  simp [pyTruthy, hus, hps, reviewRepoAdd]

/-- Witness for C10 at the fixture: Carol posts an empty-text review of
Alice's place with a valid rating. -/
theorem C10_witness :
    create_review stBase
      [("text", .str ""), ("rating", .int 4), ("user_id", .str "u3"),
       ("place_id", .str "p1")] =
    .error (.integrityError "NOT NULL constraint failed: reviews.text") :=
  C10_empty_text_skips_validator.2 stBase
    [("text", .str ""), ("rating", .int 4), ("user_id", .str "u3"), ("place_id", .str "p1")]
    "u3" "p1" 4 uCarol pLoft (by decide) (by decide) (by decide) (by decide)
    (by decide) (by decide) (by decide) (by decide) (by decide) (by decide)

/-- **C4.** For every authenticated actor and create-Review request:
a `user_id` differing from the actor's id fails with Forbidden; an
existing referenced place owned by the actor fails with Forbidden
regardless of text/rating validity; and an already-reviewed place (for
an actor passing the earlier guards) fails with Conflict, not a
validation error; in each case no review is stored. -/
theorem C4_review_create_guards (a : Actor) (s : St) (d : Payload) :
    (pyGet d "user_id" ≠ .str a.id →
      reviewListPost a s d = ⟨403, Option.none, s⟩) ∧
    (∀ ps pl, pyGet d "place_id" = .str ps → getPlace s ps = some pl →
      pl.ownerId = some a.id →
      (reviewListPost a s d).status = 403 ∧ (reviewListPost a s d).st = s) ∧
    (∀ ps pl, pyGet d "user_id" = .str a.id →
      pyGet d "place_id" = .str ps → getPlace s ps = some pl →
      pl.ownerId ≠ some a.id → user_has_reviewed_place s a.id ps = true →
      reviewListPost a s d = ⟨409, Option.none, s⟩) := by
  refine ⟨?_, ?_, ?_⟩
  · intro h
    simp only [reviewListPost, if_pos h]
  · intro ps pl hps hpl hown
    by_cases hm : pyGet d "user_id" = .str a.id
    · have heq : reviewListPost a s d = ⟨403, Option.none, s⟩ := by
        simp only [reviewListPost,
          if_neg (show ¬ pyGet d "user_id" ≠ PyVal.str a.id from fun hx => hx hm),
          hps, hpl]
        rw [if_pos (show (pl.ownerId == some a.id) = true by rw [hown]; simp)]
      rw [heq]; exact ⟨rfl, rfl⟩
    · have heq : reviewListPost a s d = ⟨403, Option.none, s⟩ := by
        simp only [reviewListPost, if_pos hm]
      rw [heq]; exact ⟨rfl, rfl⟩
  · intro ps pl hm hps hpl hown hrev
    simp only [reviewListPost,
      if_neg (show ¬ pyGet d "user_id" ≠ PyVal.str a.id from fun hx => hx hm),
      hps, hpl]
    rw [if_neg (show ¬ (pl.ownerId == some a.id) = true by simp [hown]), if_pos hrev]

/-- Witness for C4 at the fixture: a mismatched `user_id`, Alice
reviewing her own place, and Bob re-reviewing. -/
theorem C4_witness :
    reviewListPost ⟨"u3", false⟩ stBase
      [("text", .str "Great!"), ("rating", .int 3), ("user_id", .str "u2"),
       ("place_id", .str "p1")] = ⟨403, Option.none, stBase⟩ ∧
    (reviewListPost ⟨"u1", false⟩ stBase
      [("text", .str "Great!"), ("rating", .int 3), ("user_id", .str "u1"),
       ("place_id", .str "p1")]).status = 403 ∧
    reviewListPost ⟨"u2", true⟩ stBase
      [("text", .str "Again!"), ("rating", .int 3), ("user_id", .str "u2"),
       ("place_id", .str "p1")] = ⟨409, Option.none, stBase⟩ := by
  refine ⟨?_, ?_, ?_⟩
  · exact (C4_review_create_guards ⟨"u3", false⟩ stBase
      [("text", .str "Great!"), ("rating", .int 3), ("user_id", .str "u2"),
       ("place_id", .str "p1")]).1 (by decide)
  · exact ((C4_review_create_guards ⟨"u1", false⟩ stBase
      [("text", .str "Great!"), ("rating", .int 3), ("user_id", .str "u1"),
       ("place_id", .str "p1")]).2.1 "p1" pLoft (by decide) (by decide) (by decide)).1
  · exact (C4_review_create_guards ⟨"u2", true⟩ stBase
      [("text", .str "Again!"), ("rating", .int 3), ("user_id", .str "u2"),
       ("place_id", .str "p1")]).2.2 "p1" pLoft (by decide) (by decide) (by decide)
      (by decide) (by decide)

/-- **C6.** For every update or delete of a Place or Review: a missing
entity fails with NotFound for any actor; an existing entity with an
actor who is neither owner/author nor admin fails with Forbidden even
for an otherwise valid payload, with the store untouched — existence is
checked first, then ownership. -/
theorem C6_exists_then_ownership (a : Actor) (s : St) (d : Payload) :
    (∀ pid, getPlace s pid = Option.none →
      placeResourcePut a s pid d = ⟨404, Option.none, s⟩ ∧
      placeResourceDelete a s pid = ⟨404, Option.none, s⟩) ∧
    (∀ rid, getReview s rid = Option.none →
      reviewResourcePut a s rid d = ⟨404, Option.none, s⟩ ∧
      reviewResourceDelete a s rid = ⟨404, Option.none, s⟩) ∧
    (∀ pid pl, getPlace s pid = some pl → pl.ownerId ≠ some a.id → a.isAdmin = false →
      placeResourcePut a s pid d = ⟨403, Option.none, s⟩ ∧
      placeResourceDelete a s pid = ⟨403, Option.none, s⟩) ∧
    (∀ rid r, getReview s rid = some r → r.userId ≠ some a.id → a.isAdmin = false →
      reviewResourcePut a s rid d = ⟨403, Option.none, s⟩ ∧
      reviewResourceDelete a s rid = ⟨403, Option.none, s⟩) := by
  refine ⟨?_, ?_, ?_, ?_⟩
  · intro pid h
    exact ⟨by simp [placeResourcePut, h], by simp [placeResourceDelete, h]⟩
  · intro rid h
    exact ⟨by simp [reviewResourcePut, h], by simp [reviewResourceDelete, h]⟩
  · intro pid pl hp ho hadm
    have hc : pl.ownerId ≠ some a.id ∧ ¬ a.isAdmin = true := ⟨ho, by simp [hadm]⟩
    exact ⟨by simp only [placeResourcePut, hp]; rw [if_pos hc],
           by simp only [placeResourceDelete, hp]; rw [if_pos hc]⟩
  · intro rid r hr ho hadm
    have hc : r.userId ≠ some a.id ∧ ¬ a.isAdmin = true := ⟨ho, by simp [hadm]⟩
    exact ⟨by simp only [reviewResourcePut, hr]; rw [if_pos hc],
           by simp only [reviewResourceDelete, hr]; rw [if_pos hc]⟩

/-- Witness for C6: Carol (neither owner nor admin) against a missing
and an existing place/review, with a payload that is otherwise valid. -/
theorem C6_witness :
    placeResourcePut ⟨"u3", false⟩ stBase "zz" [("title", .str "Hacked")] =
      ⟨404, Option.none, stBase⟩ ∧
    placeResourcePut ⟨"u3", false⟩ stBase "p1" [("title", .str "Hacked")] =
      ⟨403, Option.none, stBase⟩ ∧
    reviewResourceDelete ⟨"u3", false⟩ stBase "zz" = ⟨404, Option.none, stBase⟩ ∧
    reviewResourceDelete ⟨"u3", false⟩ stBase "r1" = ⟨403, Option.none, stBase⟩ := by
  have h := C6_exists_then_ownership ⟨"u3", false⟩ stBase [("title", .str "Hacked")]
  exact ⟨(h.1 "zz" (by decide)).1,
         (h.2.2.1 "p1" pLoft (by decide) (by decide) rfl).1,
         (h.2.1 "zz" (by decide)).2,
         (h.2.2.2 "r1" rBob (by decide) (by decide) rfl).2⟩

/-- Reading through a dictionary assignment at a different key. -/
theorem pyGet_paySet_ne (d : Payload) (k : String) (v : PyVal) (k' : String)
    (h : k' ≠ k) : pyGet (paySet d k v) k' = pyGet d k' := by
  have hkk : (k == k') = false := beq_eq_false_iff_ne.mpr (Ne.symm h)
  have hfun : ((fun kv : String × PyVal => kv.1 == k') ∘
      (fun kv => if kv.1 == k then (k, v) else kv)) =
      (fun kv : String × PyVal => kv.1 == k') := by
    funext kv
    by_cases hk : (kv.1 == k) = true
    · have hkv : kv.1 = k := by simpa using hk
      simp [Function.comp, hk, hkv]
    · simp [Function.comp, hk]
  unfold paySet
  by_cases hk : hasKey d k
  · rw [if_pos hk]
    unfold pyGet
    rw [List.find?_map, hfun]
    cases hf : d.find? (fun kv => kv.1 == k') with
    | none => rfl
    | some kv =>
      have hp := @List.find?_some _ (fun kv : String × PyVal => kv.1 == k') kv d hf
      have hkv : kv.1 = k' := by simpa using hp
      have hne : (kv.1 == k) = false := beq_eq_false_iff_ne.mpr (hkv ▸ h)
      simp [Option.map, hne]
  · rw [if_neg hk]
    unfold pyGet
    rw [List.find?_append]
    cases hf : d.find? (fun kv => kv.1 == k') with
    | none => simp [List.find?, hkk]
    | some kv => rfl

/-- Reading back a dictionary assignment at the same key. -/
theorem pyGet_paySet_same (d : Payload) (k : String) (v : PyVal) :
    pyGet (paySet d k v) k = v := by
  unfold paySet
  by_cases hk : hasKey d k
  case pos =>
    rw [if_pos hk]
    unfold pyGet
    rw [List.find?_map]
    have hstep : ∀ t : Payload, hasKey t k = true →
        Option.map (fun kv : String × PyVal => if kv.1 == k then (k, v) else kv)
          (t.find? ((fun kv : String × PyVal => kv.1 == k) ∘
            (fun kv => if kv.1 == k then (k, v) else kv))) = some (k, v) := by
      intro t
      induction t with
      | nil => intro hx; simp [hasKey] at hx
      | cons a t ih =>
        intro hx
        by_cases hak : (a.1 == k) = true
        · rw [List.find?_cons_of_pos _
            (show ((fun kv : String × PyVal => kv.1 == k) ∘
              (fun kv => if kv.1 == k then (k, v) else kv)) a = true by
                simp [Function.comp, hak])]
          simp [Option.map, hak]
        · rw [List.find?_cons_of_neg _
            (show ¬ ((fun kv : String × PyVal => kv.1 == k) ∘
              (fun kv => if kv.1 == k then (k, v) else kv)) a = true by
                simp [Function.comp, hak])]
          exact ih (by simpa [hasKey, hak] using hx)
    rw [hstep d hk]
  case neg =>
    rw [if_neg hk]
    unfold pyGet
    rw [List.find?_append]
    have hnone : d.find? (fun kv : String × PyVal => kv.1 == k) = Option.none := by
      rw [List.find?_eq_none]
      intro kv hkv hbeq
      apply hk
      unfold hasKey
      rw [List.any_eq_true]
      exact ⟨kv, hkv, hbeq⟩
    rw [hnone]
    simp [List.find?]

/-- **C3 counterexample.** A non-admin actor who owns the referenced
place creates an amenity successfully (201, not Forbidden), with a name
that is case-insensitively equal to an existing amenity's name (no
Conflict): the source's amenity route is the owner-based, non-unique
variant. -/
theorem C3_counterexample :
    (amenityListPost ⟨"u1", false⟩ stBase
      [("name", .str "wifi"), ("place_id", .str "p1")]).status = 201 ∧
    (Actor.mk "u1" false).isAdmin = false ∧
    amWifi ∈ stBase.amenities ∧ amWifi.name = some "WiFi" ∧
    strLower "WiFi" = strLower "wifi" := by
  refine ⟨by decide, rfl, by decide, rfl, by decide⟩

/-- **C3 (amended).** Create-Amenity succeeds (201) only if the
referenced place exists and the actor is that place's owner or an
admin; for a missing place or an unauthorized actor the handler's own
NotFound/Forbidden aborts are swallowed by its catch-all `except`
clause and surface as 500 internal errors, with the store unchanged;
amenity names are not checked for uniqueness — a case-insensitive
duplicate of an existing name is accepted (the success conclusion
needs no distinctness hypothesis). -/
theorem C3_amended_owner_or_admin (a : Actor) (s : St) (d : Payload) :
    (∀ ps pl, pyGet d "place_id" = .str ps → getPlace s ps = some pl →
      pl.ownerId ≠ some a.id → a.isAdmin = false →
      amenityListPost a s d = ⟨500, Option.none, s⟩) ∧
    (getPlaceVal s (pyGet d "place_id") = Option.none →
      amenityListPost a s d = ⟨500, Option.none, s⟩) ∧
    (∀ ps pl own u0 nm, pyGet d "place_id" = .str ps → ps ≠ "" →
      getPlace s ps = some pl →
      pl.ownerId = some a.id ∨ a.isAdmin = true →
      pl.ownerId = some own → own ≠ "" → getUser s own = some u0 →
      pyGet d "name" = .str nm → nm ≠ "" → pyStrip nm ≠ "" → nm.length ≤ 255 →
      (amenityListPost a s d).status = 201) := by
  refine ⟨?_, ?_, ?_⟩
  · intro ps pl hps hpl ho hadm
    simp only [amenityListPost, hps, getPlaceVal, hpl]
    rw [if_pos ⟨ho, by simp [hadm]⟩]
  · intro h
    simp [amenityListPost, h]
  · intro ps pl own u0 nm hps hpsne hpl hauth hown howne hu0 hname hnm1 hnm2 hlen
    have hc : ¬ (pl.ownerId ≠ some a.id ∧ ¬ a.isAdmin = true) := by
      rcases hauth with h | h
      · exact fun hx => hx.1 h
      · exact fun hx => hx.2 h
    have htrnm : pyTruthy (.str nm) = true := by simp [pyTruthy, hnm1]
    have htrps : pyTruthy (.str ps) = true := by simp [pyTruthy, hpsne]
    have htrown : pyTruthy (.str own) = true := by simp [pyTruthy, howne]
    have hvn : validate_name (.str nm) = .ok (pyStrip nm) := by
      simp only [validate_name]
      rw [if_neg (by simp [hnm1, hnm2]), if_neg (by omega)]
    have hn2 : pyGet (paySet d "owner_id" (.str own)) "name" = .str nm := by
      rw [pyGet_paySet_ne _ _ _ _ (by decide)]; exact hname
    have hp2 : pyGet (paySet d "owner_id" (.str own)) "place_id" = .str ps := by
      rw [pyGet_paySet_ne _ _ _ _ (by decide)]; exact hps
    have ho2 : pyGet (paySet d "owner_id" (.str own)) "owner_id" = .str own :=
      pyGet_paySet_same d "owner_id" (.str own)
    simp only [amenityListPost, hps, getPlaceVal, hpl]
    rw [if_neg hc]
    simp only [hown]
    simp only [create_amenity, hn2, hp2, ho2, htrnm, htrps, htrown, getPlaceVal,
      getUserVal, hpl, hu0, Option.isNone_some, Bool.and_false, Bool.false_eq_true,
      not_true, if_false, amenityInit, hvn, Except.map, Except.bind, amenityRepoAdd,
      if_true]

/-- Witness for the amended C3: Carol (non-owner, non-admin) and a
missing place both get the catch-all 500, and Alice (non-admin owner)
succeeds. -/
theorem C3_witness :
    amenityListPost ⟨"u3", false⟩ stBase
      [("name", .str "Pool"), ("place_id", .str "p1")] = ⟨500, Option.none, stBase⟩ ∧
    amenityListPost ⟨"u3", false⟩ stBase
      [("name", .str "Pool"), ("place_id", .str "zz")] = ⟨500, Option.none, stBase⟩ ∧
    (amenityListPost ⟨"u1", false⟩ stBase
      [("name", .str "Pool"), ("place_id", .str "p1")]).status = 201 := by
  refine ⟨?_, ?_, ?_⟩
  · exact (C3_amended_owner_or_admin ⟨"u3", false⟩ stBase
      [("name", .str "Pool"), ("place_id", .str "p1")]).1 "p1" pLoft
      (by decide) (by decide) (by decide) rfl
  · exact (C3_amended_owner_or_admin ⟨"u3", false⟩ stBase
      [("name", .str "Pool"), ("place_id", .str "zz")]).2.1 (by decide)
  · exact (C3_amended_owner_or_admin ⟨"u1", false⟩ stBase
      [("name", .str "Pool"), ("place_id", .str "p1")]).2.2 "p1" pLoft "u1" uAlice
      "Pool" (by decide) (by decide) (by decide) (Or.inl (by decide)) (by decide)
      (by decide) (by decide) (by decide) (by decide) (by decide) (by decide)

/-- **C5 counterexample.** A create-Review request with rating `3.5`
does not fail with an InvalidInput (HTTP 400): the validator raises a
`TypeError`, which the route's `except ValueError` misses, so the API
surfaces a 500 internal error. -/
theorem C5_counterexample :
    (reviewListPost ⟨"u3", false⟩ stBase (dRate (.float (7 / 2)))).status = 500 ∧
    validate_rating (.float (7 / 2)) =
      .error (.typeError "rating must be a number (integer or float)") ∧
    (500 : Nat) ≠ 400 := by
  refine ⟨by decide, rfl, by decide⟩

/-- **C5 (amended).** Rating validation accepts exactly the integers 1
through 5: boundary ratings 1 and 5 succeed (201); integers outside
[1,5] fail with the range `ValueError`, surfaced as 400 InvalidInput;
a non-integer numeric rating such as 3.5 fails with a `TypeError`,
distinguishable from the range error, but the API surfaces it as a 500
internal error rather than a 400 InvalidInput. -/
theorem C5_amended_rating_validation :
    (∀ n : Int, 1 ≤ n → n ≤ 5 → validate_rating (.int n) = .ok n) ∧
    (∀ n : Int, n < 1 ∨ 5 < n →
      validate_rating (.int n) =
        .error (.invalidInput "rating must be between 1 and 5")) ∧
    (∀ q : Rat, validate_rating (.float q) =
      .error (.typeError "rating must be a number (integer or float)")) ∧
    (reviewListPost ⟨"u3", false⟩ stBase (dRate (.int 1))).status = 201 ∧
    (reviewListPost ⟨"u3", false⟩ stBase (dRate (.int 5))).status = 201 ∧
    (reviewListPost ⟨"u3", false⟩ stBase (dRate (.int 0))).status = 400 ∧
    (reviewListPost ⟨"u3", false⟩ stBase (dRate (.int 6))).status = 400 ∧
    (reviewListPost ⟨"u3", false⟩ stBase (dRate (.float (7 / 2)))).status = 500 := by
  refine ⟨?_, ?_, ?_, by decide, by decide, by decide, by decide, by decide⟩
  · intro n h1 h5
    simp only [validate_rating]
    rw [if_neg (by omega)]
  · intro n h
    simp only [validate_rating]
    rw [if_pos h]
  · intro q
    rfl

/-- Witness for the amended C5 at concrete ratings. -/
theorem C5_witness :
    validate_rating (.int 2) = .ok 2 ∧
    validate_rating (.int 0) =
      .error (.invalidInput "rating must be between 1 and 5") := by
  exact ⟨C5_amended_rating_validation.1 2 (by decide) (by decide),
         C5_amended_rating_validation.2.1 0 (Or.inl (by decide))⟩

/-- **C2 counterexample.** Two create-User calls whose emails are equal
after normalization (`a@x.com` then `A@x.com`): the second call does
*not* fail with Conflict — the facade's duplicate check looks up the
raw payload email, misses the stored normalized email, and the insert
is rejected by the store's unique-email constraint instead. -/
theorem C2_counterexample :
    emailValidatorNormalize "a@x.com" = emailValidatorNormalize "A@x.com" ∧
    userCreateOk (create_user stEmpty dEmailLower) = true ∧
    createUserTwice dEmailLower dEmailUpper =
      .error (.integrityError "UNIQUE constraint failed: users.email") ∧
    userCreateConflict (createUserTwice dEmailLower dEmailUpper) = false := by
  refine ⟨by decide, by decide, by rfl, by decide⟩

/-- **C2 (amended).** When the second call's raw email exactly equals a
stored user's (normalized) email, the second create fails with Conflict
— in particular for `A@x.com` then `a@x.com`.  When the normalized
emails collide but the raw lookup misses (`a@x.com` then `A@x.com`),
the facade check passes and the store's unique constraint rejects the
insert with an integrity error; in neither case is a second user
stored. -/
theorem C2_amended_duplicate_email (s : St) (d : Payload) :
    (∀ e2 u, pyGet d "email" = .str e2 → e2 ≠ "" →
      getUserByEmail s e2 = some u →
      create_user s d = .error (.conflict "Email already registered")) ∧
    createUserTwice dEmailUpper dEmailLower =
      .error (.conflict "Email already registered") ∧
    createUserTwice dEmailLower dEmailUpper =
      .error (.integrityError "UNIQUE constraint failed: users.email") := by
  refine ⟨?_, by rfl, by rfl⟩
  intro e2 u he hne hu
  have htr : pyTruthy (pyGet d "email") = true := by rw [he]; simp [pyTruthy, hne]
  have hval : getUserByEmailVal s (pyGet d "email") = some u := by
    rw [he]; exact hu
  simp only [create_user, htr, hval, Option.isSome_some, if_true, not_true,
    Bool.true_eq_false, if_false]

/-- Witness for the amended C2: creating a user with Alice's exact
stored email fails with Conflict. -/
theorem C2_witness :
    create_user stBase
      [("first_name", .str "Ann"), ("last_name", .str "Lee"),
       ("email", .str "alice@x.com"), ("password", .str "secret9")] =
    .error (.conflict "Email already registered") := by
  exact (C2_amended_duplicate_email stBase
    [("first_name", .str "Ann"), ("last_name", .str "Lee"),
     ("email", .str "alice@x.com"), ("password", .str "secret9")]).1
    "alice@x.com" uAlice (by decide) (by decide) (by decide)

/-- Reading a payload through a `cons`. -/
theorem pyGet_cons (k : String) (v : PyVal) (rest : Payload) (key : String) :
    pyGet ((k, v) :: rest) key = if (k == key) = true then v else pyGet rest key := by
  by_cases h : (k == key) = true
  · rw [if_pos h]
    unfold pyGet
    rw [@List.find?_cons_of_pos _ (fun kv : String × PyVal => kv.1 == key) (k, v) rest h]
  · rw [if_neg h]
    unfold pyGet
    rw [@List.find?_cons_of_neg _ (fun kv : String × PyVal => kv.1 == key) (k, v) rest h]

/-- Key membership through a `cons`. -/
theorem hasKey_cons (k : String) (v : PyVal) (rest : Payload) (key : String) :
    hasKey ((k, v) :: rest) key = ((k == key) || hasKey rest key) := rfl

/-- A key absent from the key list is not found. -/
theorem hasKey_false_of_not_mem (rest : Payload) (key : String)
    (h : key ∉ rest.map Prod.fst) : hasKey rest key = false := by
  rw [← Bool.not_eq_true, hasKey, List.any_eq_true]
  rintro ⟨kv, hkv, hbeq⟩
  exact h (List.mem_map.mpr ⟨kv, hkv, by simpa using hbeq⟩)

/-- `resolveAmenityIds` returns the ids it was given. -/
theorem resolveAmenityIds_ok (s : St) : ∀ ids rids,
    resolveAmenityIds s ids = .ok rids → rids = ids := by
  intro ids
  induction ids with
  | nil =>
    intro rids h
    simp only [resolveAmenityIds] at h
    exact (Except.ok.inj h).symm
  | cons a t ih =>
    intro rids h
    simp only [resolveAmenityIds] at h
    cases hga : getAmenity s a with
    | none => rw [hga] at h; exact absurd h (by simp)
    | some am =>
      rw [hga] at h
      cases hr : resolveAmenityIds s t with
      | error e => rw [hr] at h; exact absurd h (by simp [Except.map])
      | ok rt =>
        rw [hr] at h
        simp only [Except.map] at h
        rw [← Except.ok.inj h, ih rt hr]

/-- `resolveAmenityIds` fails with a `ValueError` when any id is missing. -/
theorem resolveAmenityIds_missing (s : St) : ∀ ids aid, aid ∈ ids →
    getAmenity s aid = Option.none →
    ∃ m, resolveAmenityIds s ids = .error (.invalidInput m) := by
  intro ids
  induction ids with
  | nil => intro aid h; exact absurd h (List.not_mem_nil aid)
  | cons a t ih =>
    intro aid hmem hnone
    simp only [resolveAmenityIds]
    cases hga : getAmenity s a with
    | none => exact ⟨_, rfl⟩
    | some am =>
      have haid : aid ∈ t := by
        rcases List.mem_cons.mp hmem with h | h
        · subst h; rw [hga] at hnone; exact absurd hnone (by simp)
        · exact h
      obtain ⟨m, hm⟩ := ih aid haid hnone
      exact ⟨m, by rw [hm]; rfl⟩

/-- A single attribute assignment other than the `amenities` collection
leaves the association list unchanged. -/
theorem placeSetAttr_amenities (p : PlaceE) (k : String) (v : UpdVal) (p' : PlaceE)
    (h : placeSetAttr p k v = .ok p')
    (hv : ∀ ids, v = .ams ids → (k == "amenities") = false) :
    p'.amenities = p.amenities := by
  cases v with
  | ams ids =>
    simp only [placeSetAttr] at h
    rw [hv ids rfl] at h
    simp only [Bool.false_eq_true, if_false] at h
    rw [← Except.ok.inj h]
  | py w =>
    simp only [placeSetAttr] at h
    by_cases h1 : (k == "title") = true
    · rw [if_pos h1] at h
      cases hv2 : validate_title w with
      | error e => rw [hv2] at h; exact absurd h (by simp [Except.map])
      | ok x => rw [hv2] at h; simp only [Except.map] at h; rw [← Except.ok.inj h]
    · rw [if_neg h1] at h
      by_cases h2 : (k == "description") = true
      · rw [if_pos h2] at h; rw [← Except.ok.inj h]
      · rw [if_neg h2] at h
        by_cases h3 : (k == "price") = true
        · rw [if_pos h3] at h
          cases hv2 : validate_price w with
          | error e => rw [hv2] at h; exact absurd h (by simp [Except.map])
          | ok x => rw [hv2] at h; simp only [Except.map] at h; rw [← Except.ok.inj h]
        · rw [if_neg h3] at h
          by_cases h4 : (k == "latitude") = true
          · rw [if_pos h4] at h
            cases hv2 : validate_latitude w with
            | error e => rw [hv2] at h; exact absurd h (by simp [Except.map])
            | ok x => rw [hv2] at h; simp only [Except.map] at h; rw [← Except.ok.inj h]
          · rw [if_neg h4] at h
            by_cases h5 : (k == "longitude") = true
            · rw [if_pos h5] at h
              cases hv2 : validate_longitude w with
              | error e => rw [hv2] at h; exact absurd h (by simp [Except.map])
              | ok x => rw [hv2] at h; simp only [Except.map] at h; rw [← Except.ok.inj h]
            · rw [if_neg h5] at h
              by_cases h6 : (k == "owner_id") = true
              · rw [if_pos h6] at h; rw [← Except.ok.inj h]
              · rw [if_neg h6] at h; rw [← Except.ok.inj h]

/-- Applying an update that contains no `amenities` replacement leaves
the association list unchanged. -/
theorem placeApplyUpdate_amenities : ∀ (ud : List (String × UpdVal)) (pl pl' : PlaceE),
    placeApplyUpdate pl ud = .ok pl' →
    (∀ ids, (("amenities", UpdVal.ams ids) : String × UpdVal) ∉ ud) →
    pl'.amenities = pl.amenities := by
  intro ud
  induction ud with
  | nil =>
    intro pl pl' h _
    simp only [placeApplyUpdate] at h
    rw [← Except.ok.inj h]
  | cons kv rest ih =>
    intro pl pl' h hno
    obtain ⟨k, v⟩ := kv
    simp only [placeApplyUpdate] at h
    by_cases hskip : (k == "id") = true ∨ (k == "created_at") = true ∨
        (k == "__class__") = true
    · rw [if_pos hskip] at h
      exact ih pl pl' h (fun ids hmem => hno ids (List.mem_cons_of_mem _ hmem))
    · rw [if_neg hskip] at h
      cases hsa : placeSetAttr pl k v with
      | error e => rw [hsa] at h; exact absurd h (by simp [Except.bind])
      | ok pmid =>
        rw [hsa] at h
        simp only [Except.bind] at h
        have hv : ∀ ids, v = .ams ids → (k == "amenities") = false := by
          intro ids hveq
          subst hveq
          by_contra hx
          have hk : k = "amenities" := by
            simpa using Bool.not_eq_false _ |>.mp hx
          exact hno ids (by rw [hk]; exact List.mem_cons_self _ _)
        have hmid := placeSetAttr_amenities pl k v pmid hsa hv
        rw [ih pmid pl' h (fun ids hmem => hno ids (List.mem_cons_of_mem _ hmem)), hmid]

/-- Building update data from an amenities-free payload yields no
`amenities` replacement entry. -/
theorem buildPlaceUpdateData_no_amenities (s : St) : ∀ (d : Payload) ud,
    hasKey d "amenities" = false → buildPlaceUpdateData s d = .ok ud →
    ∀ ids, (("amenities", UpdVal.ams ids) : String × UpdVal) ∉ ud := by
  intro d
  induction d with
  | nil =>
    intro ud _ h ids
    simp only [buildPlaceUpdateData] at h
    rw [← Except.ok.inj h]
    exact List.not_mem_nil _
  | cons kv rest ih =>
    intro ud hk h ids
    obtain ⟨k, v⟩ := kv
    rw [hasKey_cons, Bool.or_eq_false_iff] at hk
    obtain ⟨hk1, hk2⟩ := hk
    simp only [buildPlaceUpdateData, hk1, Bool.false_eq_true, if_false] at h
    by_cases hpa : placeHasAttr k = true
    · rw [if_pos hpa] at h
      cases hb : buildPlaceUpdateData s rest with
      | error e => rw [hb] at h; exact absurd h (by simp [Except.map])
      | ok ud' =>
        rw [hb] at h
        simp only [Except.map] at h
        rw [← Except.ok.inj h]
        intro hmem
        rcases List.mem_cons.mp hmem with hh | hh
        · have hki : "amenities" = k := congrArg Prod.fst hh
          rw [← hki] at hk1
          simp at hk1
        · exact ih ud' hk2 hb ids hh
    · rw [if_neg hpa] at h
      exact ih ud hk2 h ids

/-- The composed build-then-apply pipeline stores exactly the payload's
`amenities` id list when the key is present with resolvable ids. -/
theorem buildApply_amenities (s : St) : ∀ (d : Payload) (ids : List String)
    (ud : List (String × UpdVal)) (pl pl'' : PlaceE),
    NodupKeys d → pyGet d "amenities" = .list ids → hasKey d "amenities" = true →
    buildPlaceUpdateData s d = .ok ud → placeApplyUpdate pl ud = .ok pl'' →
    pl''.amenities = ids := by
  intro d
  induction d with
  | nil => intro ids ud pl pl'' _ _ hk; simp [hasKey] at hk
  | cons kv rest ih =>
    intro ids ud pl pl'' hnd hg hk hb ha
    obtain ⟨k, v⟩ := kv
    have hnd2 : NodupKeys rest := (List.nodup_cons.mp hnd).2
    by_cases hka : (k == "amenities") = true
    · have hkeq : k = "amenities" := by simpa using hka
      have hv : v = .list ids := by
        rw [pyGet_cons, if_pos hka] at hg
        exact hg
      simp only [buildPlaceUpdateData, hka, if_true, hv] at hb
      cases hres : resolveAmenityIds s ids with
      | error e => rw [hres] at hb; exact absurd hb (by simp [Except.bind])
      | ok rids =>
        rw [hres] at hb
        simp only [Except.bind] at hb
        have hrids : rids = ids := resolveAmenityIds_ok s ids rids hres
        cases hbr : buildPlaceUpdateData s rest with
        | error e => rw [hbr] at hb; exact absurd hb (by simp [Except.map])
        | ok ud' =>
          rw [hbr] at hb
          simp only [Except.map] at hb
          rw [← Except.ok.inj hb] at ha
          simp only [placeApplyUpdate, hkeq] at ha
          rw [if_neg (by decide)] at ha
          have hset : placeSetAttr pl "amenities" (.ams rids) =
              .ok { pl with amenities := rids } := rfl
          rw [hset] at ha
          simp only [Except.bind] at ha
          have hnorest : hasKey rest "amenities" = false := by
            apply hasKey_false_of_not_mem
            rw [← hkeq]
            exact (List.nodup_cons.mp hnd).1
          have := placeApplyUpdate_amenities ud' { pl with amenities := rids } pl'' ha
            (buildPlaceUpdateData_no_amenities s rest ud' hnorest hbr)
          rw [this, hrids]
    · have hg2 : pyGet rest "amenities" = .list ids := by
        rw [pyGet_cons, if_neg hka] at hg
        exact hg
      have hk2 : hasKey rest "amenities" = true := by
        have hka' : (k == "amenities") = false := by simpa using hka
        rw [hasKey_cons, hka'] at hk
        simpa using hk
      simp only [buildPlaceUpdateData, hka, Bool.false_eq_true, if_false] at hb
      by_cases hpa : placeHasAttr k = true
      · rw [if_pos hpa] at hb
        cases hbr : buildPlaceUpdateData s rest with
        | error e => rw [hbr] at hb; exact absurd hb (by simp [Except.map])
        | ok ud' =>
          rw [hbr] at hb
          simp only [Except.map] at hb
          rw [← Except.ok.inj hb] at ha
          simp only [placeApplyUpdate] at ha
          by_cases hskip : (k == "id") = true ∨ (k == "created_at") = true ∨
              (k == "__class__") = true
          · rw [if_pos hskip] at ha
            exact ih ids ud' pl pl'' hnd2 hg2 hk2 hbr ha
          · rw [if_neg hskip] at ha
            cases hsa : placeSetAttr pl k (.py v) with
            | error e => rw [hsa] at ha; exact absurd ha (by simp [Except.bind])
            | ok pmid =>
              rw [hsa] at ha
              simp only [Except.bind] at ha
              exact ih ids ud' pmid pl'' hnd2 hg2 hk2 hbr ha
      · rw [if_neg hpa] at hb
        exact ih ids ud pl pl'' hnd2 hg2 hk2 hb ha

/-- Building update data fails with a `ValueError` when the payload's
`amenities` list names a missing amenity. -/
theorem buildPlaceUpdateData_missing (s : St) : ∀ (d : Payload) ids aid,
    pyGet d "amenities" = .list ids → hasKey d "amenities" = true →
    aid ∈ ids → getAmenity s aid = Option.none →
    ∃ m, buildPlaceUpdateData s d = .error (.invalidInput m) := by
  intro d
  induction d with
  | nil => intro ids aid _ hk; simp [hasKey] at hk
  | cons kv rest ih =>
    intro ids aid hg hk hmem hnone
    obtain ⟨k, v⟩ := kv
    by_cases hka : (k == "amenities") = true
    · have hv : v = .list ids := by
        rw [pyGet_cons, if_pos hka] at hg
        exact hg
      obtain ⟨m, hm⟩ := resolveAmenityIds_missing s ids aid hmem hnone
      exact ⟨m, by simp only [buildPlaceUpdateData, hka, if_true, hv, hm]; rfl⟩
    · have hg2 : pyGet rest "amenities" = .list ids := by
        rw [pyGet_cons, if_neg hka] at hg
        exact hg
      have hk2 : hasKey rest "amenities" = true := by
        have hka' : (k == "amenities") = false := by simpa using hka
        rw [hasKey_cons, hka'] at hk
        simpa using hk
      obtain ⟨m, hm⟩ := ih ids aid hg2 hk2 hmem hnone
      refine ⟨m, ?_⟩
      simp only [buildPlaceUpdateData, hka, Bool.false_eq_true, if_false]
      by_cases hpa : placeHasAttr k = true
      · rw [if_pos hpa, hm]; rfl
      · rw [if_neg hpa, hm]

/-- **C7.** For every Place update: when the payload contains the
`amenities` key, the place's association list afterwards equals exactly
the listed ids (full replacement; an empty list clears it), and every
listed id must resolve to an existing amenity (otherwise InvalidInput);
when the key is absent, a successful update leaves the associations
unchanged. -/
theorem C7_amenities_full_replacement (s : St) (pid : String) (d : Payload) :
    (∀ pl pl' s' ids, NodupKeys d → getPlace s pid = some pl →
      pyGet d "amenities" = .list ids → hasKey d "amenities" = true →
      update_place s pid d = .ok (some (pl', s')) →
      pl'.amenities = ids) ∧
    (∀ pl ids aid, getPlace s pid = some pl →
      pyGet d "amenities" = .list ids → hasKey d "amenities" = true →
      aid ∈ ids → getAmenity s aid = Option.none →
      ∃ m, update_place s pid d = .error (.invalidInput m)) ∧
    (∀ pl pl' s', getPlace s pid = some pl → hasKey d "amenities" = false →
      update_place s pid d = .ok (some (pl', s')) →
      pl'.amenities = pl.amenities) := by
  refine ⟨?_, ?_, ?_⟩
  · intro pl pl' s' ids hnd hpl hg hk h
    by_cases h1 : hasKey d "id" = true
    · rw [show update_place s pid d = .error (.invalidInput "Cannot update 'id'") by
        simp [update_place, hpl, h1]] at h
      exact absurd h (by simp)
    · by_cases h2 : hasKey d "owner_id" = true
      · rw [show update_place s pid d =
            .error (.invalidInput "Cannot update 'owner_id'") by
          simp [update_place, hpl, h1, h2]] at h
        exact absurd h (by simp)
      · by_cases h3 : hasKey d "created_at" = true
        · rw [show update_place s pid d =
              .error (.invalidInput "Cannot update 'created_at'") by
            simp [update_place, hpl, h1, h2, h3]] at h
          exact absurd h (by simp)
        · simp only [update_place, hpl, h1, h2, h3, Bool.false_eq_true, if_false] at h
          cases hb : buildPlaceUpdateData s d with
          | error e => rw [hb] at h; exact absurd h (by simp [Except.bind])
          | ok ud =>
            rw [hb] at h
            simp only [Except.bind] at h
            cases ha : placeApplyUpdate pl ud with
            | error e => rw [ha] at h; exact absurd h (by simp [Except.map])
            | ok pl'' =>
              rw [ha] at h
              simp only [Except.map] at h
              have hinj := Except.ok.inj h
              have hpl'' : pl'' = pl' := by
                have := congrArg (fun o => o.map Prod.fst) hinj
                simpa using this
              rw [← hpl'']
              exact buildApply_amenities s d ids ud pl pl'' hnd hg hk hb ha
  · intro pl ids aid hpl hg hk hmem hnone
    by_cases h1 : hasKey d "id" = true
    · exact ⟨"Cannot update 'id'", by simp [update_place, hpl, h1]⟩
    · by_cases h2 : hasKey d "owner_id" = true
      · exact ⟨"Cannot update 'owner_id'", by simp [update_place, hpl, h1, h2]⟩
      · by_cases h3 : hasKey d "created_at" = true
        · exact ⟨"Cannot update 'created_at'", by simp [update_place, hpl, h1, h2, h3]⟩
        · obtain ⟨m, hm⟩ := buildPlaceUpdateData_missing s d ids aid hg hk hmem hnone
          refine ⟨m, ?_⟩
          simp only [update_place, hpl, h1, h2, h3, Bool.false_eq_true, if_false, hm]
          rfl
  · intro pl pl' s' hpl hk h
    by_cases h1 : hasKey d "id" = true
    · rw [show update_place s pid d = .error (.invalidInput "Cannot update 'id'") by
        simp [update_place, hpl, h1]] at h
      exact absurd h (by simp)
    · by_cases h2 : hasKey d "owner_id" = true
      · rw [show update_place s pid d =
            .error (.invalidInput "Cannot update 'owner_id'") by
          simp [update_place, hpl, h1, h2]] at h
        exact absurd h (by simp)
      · by_cases h3 : hasKey d "created_at" = true
        · rw [show update_place s pid d =
              .error (.invalidInput "Cannot update 'created_at'") by
            simp [update_place, hpl, h1, h2, h3]] at h
          exact absurd h (by simp)
        · simp only [update_place, hpl, h1, h2, h3, Bool.false_eq_true, if_false] at h
          cases hb : buildPlaceUpdateData s d with
          | error e => rw [hb] at h; exact absurd h (by simp [Except.bind])
          | ok ud =>
            rw [hb] at h
            simp only [Except.bind] at h
            cases ha : placeApplyUpdate pl ud with
            | error e => rw [ha] at h; exact absurd h (by simp [Except.map])
            | ok pl'' =>
              rw [ha] at h
              simp only [Except.map] at h
              have hinj := Except.ok.inj h
              have hpl'' : pl'' = pl' := by
                have := congrArg (fun o => o.map Prod.fst) hinj
                simpa using this
              rw [← hpl'']
              exact placeApplyUpdate_amenities ud pl pl'' ha
                (buildPlaceUpdateData_no_amenities s d ud hk hb)

/-- Witness for C7: clearing the fixture place's associations with an
empty list, rejecting a missing amenity id, and leaving associations
unchanged when the key is absent. -/
theorem C7_witness :
    ({ pLoft with amenities := [] } : PlaceE).amenities = ([] : List String) ∧
    (∃ m, update_place stBase "p1" [("amenities", .list ["zz"])] =
      .error (.invalidInput m)) ∧
    ({ pLoft with title := some "New" } : PlaceE).amenities = pLoft.amenities := by
  refine ⟨?_, ?_, ?_⟩
  · exact (C7_amenities_full_replacement stBase "p1"
      [("amenities", .list [])]).1 pLoft { pLoft with amenities := [] }
      (setPlace stBase "p1" { pLoft with amenities := [] }) []
      (by unfold NodupKeys; decide) (by decide) (by decide) (by decide) (by rfl)
  · exact (C7_amenities_full_replacement stBase "p1"
      [("amenities", .list ["zz"])]).2.1 pLoft ["zz"] "zz"
      (by decide) (by decide) (by decide) (by decide) (by decide)
  · exact (C7_amenities_full_replacement stBase "p1"
      [("title", .str "New")]).2.2 pLoft { pLoft with title := some "New" }
      (setPlace stBase "p1" { pLoft with title := some "New" })
      (by decide) (by decide) (by rfl)

end HBnB
